import Mathlib

/-!
Verification of the Product catalog CRUD service.

The HTTP route handlers are translated from `service/routes.py`.
The persistence/model layer (`Product`, `Category`, the store operations and
the error-to-status mapping) is not part of the provided sources, so those
definitions are modelled from the specification, as indicated in their
doc comments.
-/

namespace ProductService

/-! ## Decimal values

Modelled from the spec: `price` is a "decimal currency amount; stored and
serialized as a base-10 string to avoid binary floating-point rounding",
and it "round-trips exactly through its string serialization".
A decimal is an integer mantissa together with a scale (number of digits
after the decimal point); its value is `mantissa / 10 ^ scale`.
-/

structure Dec where
  mantissa : Int
  scale : Nat
deriving DecidableEq, Repr

/-- The character for a single base-10 digit. -/
def digitChar (d : Nat) : Char := Char.ofNat (48 + d)

/-- The numeric value of a base-10 digit character. -/
def charDigit (c : Char) : Nat := c.toNat - 48

/-- Little-endian base-10 digits, by fuel (structural recursion so that the
kernel can evaluate it). -/
def digitsAuxF : Nat → Nat → List Nat
  | _, 0 => []
  | 0, _ => []
  | fuel+1, n+1 => ((n+1) % 10) :: digitsAuxF fuel ((n+1) / 10)

/-- Little-endian base-10 digits of a natural number (empty for 0). -/
def digitsLE (n : Nat) : List Nat := digitsAuxF n n

/-- Value of a little-endian base-10 digit list. -/
def ofDigitsLE : List Nat → Nat
  | [] => 0
  | d :: ds => d + 10 * ofDigitsLE ds

/-- The unsigned part of the plain base-10 string of a decimal: integer
digits, and — when the scale is positive — a point followed by exactly
`scale` fractional digits. -/
def Dec.printCore (n s : Nat) : List Char :=
  let padded := digitsLE n ++ List.replicate (s + 1 - (digitsLE n).length) 0
  if s = 0 then ((padded.drop s).reverse).map digitChar
  else ((padded.drop s).reverse).map digitChar ++ '.' :: ((padded.take s).reverse).map digitChar

/-- The character list of the plain base-10 string of a decimal.
Modelled from the spec: serialization of `price` as a base-10 string. -/
def Dec.printL (d : Dec) : List Char :=
  if d.mantissa < 0 then '-' :: Dec.printCore d.mantissa.natAbs d.scale
  else Dec.printCore d.mantissa.natAbs d.scale

/-- The base-10 string of a decimal. -/
def Dec.print (d : Dec) : String := ⟨Dec.printL d⟩

/-- Parse an unsigned plain base-10 numeral (optionally with a point) into
mantissa and scale. -/
def Dec.parseUnsignedL (cs : List Char) : Option (Nat × Nat) :=
  let ip := cs.takeWhile (fun c => c ≠ '.')
  let rest := cs.dropWhile (fun c => c ≠ '.')
  match rest with
  | [] =>
    if ip ≠ [] ∧ ip.all Char.isDigit then
      some (ofDigitsLE ((ip.map charDigit).reverse), 0)
    else none
  | _ :: fp =>
    if ip ≠ [] ∧ fp ≠ [] ∧ ip.all Char.isDigit ∧ fp.all Char.isDigit then
      some (ofDigitsLE (((ip ++ fp).map charDigit).reverse), fp.length)
    else none

/-- Parse a plain base-10 decimal string (character-list form). -/
def Dec.parseL (cs : List Char) : Option Dec :=
  if cs.head? = some '-' then
    (Dec.parseUnsignedL cs.tail).map (fun p => ⟨-(p.1 : Int), p.2⟩)
  else
    (Dec.parseUnsignedL cs).map (fun p => ⟨(p.1 : Int), p.2⟩)

/-- Parse a plain base-10 decimal string. Modelled from the spec:
construction of a decimal from its string representation. -/
def Dec.parse (s : String) : Option Dec := Dec.parseL s.data

/-! ### Round-trip lemmas for the decimal string form -/

theorem ofDigitsLE_digitsAuxF (fuel n : Nat) (h : n ≤ fuel) :
    ofDigitsLE (digitsAuxF fuel n) = n := by
  induction fuel generalizing n with
  | zero => interval_cases n; rfl
  | succ f ih =>
    match n with
    | 0 => rfl
    | m+1 =>
      have hd : (m+1) / 10 ≤ f := by
        have h1 : (m+1) / 10 < m + 1 := Nat.div_lt_self (Nat.succ_pos m) (by norm_num)
        omega
      simp only [digitsAuxF, ofDigitsLE, ih _ hd]
      omega

theorem ofDigitsLE_digitsLE (n : Nat) : ofDigitsLE (digitsLE n) = n :=
  ofDigitsLE_digitsAuxF n n (Nat.le_refl n)

theorem digitsAuxF_lt (fuel n : Nat) : ∀ d ∈ digitsAuxF fuel n, d < 10 := by
  induction fuel generalizing n with
  | zero => match n with
    | 0 => intro d hd; simp [digitsAuxF] at hd
    | m+1 => intro d hd; simp [digitsAuxF] at hd
  | succ f ih =>
    match n with
    | 0 => intro d hd; simp [digitsAuxF] at hd
    | m+1 =>
      intro d hd
      simp only [digitsAuxF, List.mem_cons] at hd
      rcases hd with h | h
      · subst h; exact Nat.mod_lt _ (by norm_num)
      · exact ih _ d h

theorem digitsLE_lt (n : Nat) : ∀ d ∈ digitsLE n, d < 10 :=
  digitsAuxF_lt n n

theorem ofDigitsLE_append (a b : List Nat) :
    ofDigitsLE (a ++ b) = ofDigitsLE a + 10 ^ a.length * ofDigitsLE b := by
  induction a with
  | nil => simp [ofDigitsLE]
  | cons d ds ih =>
    simp only [List.cons_append, ofDigitsLE, List.append_eq, ih, List.length_cons]
    ring

theorem ofDigitsLE_replicate_zero (k : Nat) :
    ofDigitsLE (List.replicate k 0) = 0 := by
  induction k with
  | zero => rfl
  | succ m ih => simp [List.replicate, ofDigitsLE, ih]

theorem charDigit_digitChar (d : Nat) (h : d < 10) : charDigit (digitChar d) = d := by
  interval_cases d <;> decide

theorem isDigit_digitChar (d : Nat) (h : d < 10) : (digitChar d).isDigit = true := by
  interval_cases d <;> decide

theorem digitChar_ne_dot (d : Nat) (h : d < 10) : digitChar d ≠ '.' := by
  interval_cases d <;> decide

theorem digitChar_ne_minus (d : Nat) (h : d < 10) : digitChar d ≠ '-' := by
  interval_cases d <;> decide

theorem takeWhile_append_of_all {p : Char → Bool} (a b : List Char)
    (h : ∀ c ∈ a, p c = true) : (a ++ b).takeWhile p = a ++ b.takeWhile p := by
  induction a with
  | nil => simp
  | cons x xs ih =>
    have hx : p x = true := h x (List.mem_cons_self x xs)
    simp only [List.cons_append, List.takeWhile_cons, hx, if_true]
    rw [ih (fun c hc => h c (List.mem_cons_of_mem x hc))]

theorem dropWhile_append_of_all {p : Char → Bool} (a b : List Char)
    (h : ∀ c ∈ a, p c = true) : (a ++ b).dropWhile p = b.dropWhile p := by
  induction a with
  | nil => simp
  | cons x xs ih =>
    have hx : p x = true := h x (List.mem_cons_self x xs)
    simp only [List.cons_append, List.dropWhile_cons, hx, if_true]
    exact ih (fun c hc => h c (List.mem_cons_of_mem x hc))

theorem takeWhile_eq_self_of_all {p : Char → Bool} (a : List Char)
    (h : ∀ c ∈ a, p c = true) : a.takeWhile p = a := by
  have := takeWhile_append_of_all a [] h
  simpa using this

theorem dropWhile_eq_nil_of_all {p : Char → Bool} (a : List Char)
    (h : ∀ c ∈ a, p c = true) : a.dropWhile p = [] := by
  have := dropWhile_append_of_all a [] h
  simpa using this

theorem map_charDigit_map_digitChar (L : List Nat) (h : ∀ x ∈ L, x < 10) :
    (L.map digitChar).map charDigit = L := by
  rw [List.map_map]
  have : ∀ x ∈ L, (charDigit ∘ digitChar) x = id x := fun x hx =>
    charDigit_digitChar x (h x hx)
  rw [List.map_congr_left this, List.map_id]

theorem all_isDigit_map_digitChar (L : List Nat) (h : ∀ x ∈ L, x < 10) :
    (L.map digitChar).all Char.isDigit = true := by
  rw [List.all_eq_true]
  intro c hc
  rw [List.mem_map] at hc
  obtain ⟨x, hx, rfl⟩ := hc
  exact isDigit_digitChar x (h x hx)

theorem ne_dot_map_digitChar (L : List Nat) (h : ∀ x ∈ L, x < 10) :
    ∀ c ∈ L.map digitChar, (fun c => decide (c ≠ '.')) c = true := by
  intro c hc
  rw [List.mem_map] at hc
  obtain ⟨x, hx, rfl⟩ := hc
  simpa using digitChar_ne_dot x (h x hx)

/-- Parsing the unsigned printed form recovers the digit-list value and the
scale. `P` stands for the padded little-endian digit list. -/
theorem parseUnsignedL_parts (P : List Nat) (s : Nat)
    (hlt : ∀ x ∈ P, x < 10) (hlen : s < P.length) :
    Dec.parseUnsignedL
      (if s = 0 then ((P.drop s).reverse).map digitChar
       else ((P.drop s).reverse).map digitChar ++ '.' :: ((P.take s).reverse).map digitChar)
    = some (ofDigitsLE P, s) := by
  have hdropMem : ∀ x ∈ (P.drop s).reverse, x < 10 := fun x hx =>
    hlt x (List.mem_of_mem_drop (List.mem_reverse.mp hx))
  have htakeMem : ∀ x ∈ (P.take s).reverse, x < 10 := fun x hx =>
    hlt x (List.mem_of_mem_take (List.mem_reverse.mp hx))
  have hAne : ((P.drop s).reverse).map digitChar ≠ [] := by
    simp only [ne_eq, List.map_eq_nil_iff, List.reverse_eq_nil_iff, List.drop_eq_nil_iff]
    omega
  by_cases hs : s = 0
  · subst hs
    simp only [if_true]
    unfold Dec.parseUnsignedL
    rw [takeWhile_eq_self_of_all _ (ne_dot_map_digitChar _ hdropMem),
        dropWhile_eq_nil_of_all _ (ne_dot_map_digitChar _ hdropMem)]
    simp only [hAne, ne_eq, not_false_iff, all_isDigit_map_digitChar _ hdropMem, and_true,
      true_and, if_true, not_true]
    rw [map_charDigit_map_digitChar _ hdropMem, List.reverse_reverse, List.drop_zero]
  · rw [if_neg hs]
    unfold Dec.parseUnsignedL
    rw [takeWhile_append_of_all _ _ (ne_dot_map_digitChar _ hdropMem),
        dropWhile_append_of_all _ _ (ne_dot_map_digitChar _ hdropMem)]
    have hdot : (fun c => decide (c ≠ '.')) '.' = false := by decide
    rw [List.takeWhile_cons, List.dropWhile_cons]
    simp only [hdot, Bool.false_eq_true, if_false, List.append_nil]
    have hBne : ((P.take s).reverse).map digitChar ≠ [] := by
      intro hnil
      have hlen0 : (((P.take s).reverse).map digitChar).length = 0 := by rw [hnil]; rfl
      rw [List.length_map, List.length_reverse, List.length_take] at hlen0
      omega
    simp only [hAne, hBne, ne_eq, not_false_iff, all_isDigit_map_digitChar _ hdropMem,
      all_isDigit_map_digitChar _ htakeMem, and_true, true_and, if_true]
    have hval : ((((P.drop s).reverse).map digitChar ++ ((P.take s).reverse).map digitChar).map
        charDigit).reverse = P := by
      rw [List.map_append, map_charDigit_map_digitChar _ hdropMem,
          map_charDigit_map_digitChar _ htakeMem, List.reverse_append,
          List.reverse_reverse, List.reverse_reverse, List.take_append_drop]
    rw [hval]
    have hBlen : (((P.take s).reverse).map digitChar).length = s := by
      rw [List.length_map, List.length_reverse, List.length_take]
      omega
    rw [hBlen]

theorem mem_padded_lt (n s : Nat) :
    ∀ x ∈ digitsLE n ++ List.replicate (s + 1 - (digitsLE n).length) 0, x < 10 := by
  intro x hx
  rw [List.mem_append] at hx
  rcases hx with h | h
  · exact digitsLE_lt n x h
  · rw [List.eq_of_mem_replicate h]; omega

theorem padded_length (n s : Nat) :
    s < (digitsLE n ++ List.replicate (s + 1 - (digitsLE n).length) 0).length := by
  rw [List.length_append, List.length_replicate]
  omega

theorem ofDigitsLE_padded (n s : Nat) :
    ofDigitsLE (digitsLE n ++ List.replicate (s + 1 - (digitsLE n).length) 0) = n := by
  rw [ofDigitsLE_append, ofDigitsLE_replicate_zero, ofDigitsLE_digitsLE]
  ring

theorem Dec.parseUnsignedL_printCore (n s : Nat) :
    Dec.parseUnsignedL (Dec.printCore n s) = some (n, s) := by
  unfold Dec.printCore
  have := parseUnsignedL_parts
    (digitsLE n ++ List.replicate (s + 1 - (digitsLE n).length) 0) s
    (mem_padded_lt n s) (padded_length n s)
  rw [ofDigitsLE_padded] at this
  exact this

theorem Dec.printCore_mem (n s : Nat) :
    ∀ c ∈ Dec.printCore n s, c.isDigit = true ∨ c = '.' := by
  intro c hc
  simp only [Dec.printCore] at hc
  have hmem : ∀ (L : List Nat), (∀ x ∈ L, x < 10) → c ∈ L.map digitChar → c.isDigit = true := by
    intro L hL hcL
    rw [List.mem_map] at hcL
    obtain ⟨x, hx, rfl⟩ := hcL
    exact isDigit_digitChar x (hL x hx)
  by_cases hs : s = 0
  · rw [if_pos hs] at hc
    exact Or.inl (hmem _ (fun x hx => mem_padded_lt n s x (List.mem_of_mem_drop (List.mem_reverse.mp hx))) hc)
  · rw [if_neg hs] at hc
    rw [List.mem_append, List.mem_cons] at hc
    rcases hc with h | h | h
    · exact Or.inl (hmem _ (fun x hx => mem_padded_lt n s x (List.mem_of_mem_drop (List.mem_reverse.mp hx))) h)
    · exact Or.inr h
    · exact Or.inl (hmem _ (fun x hx => mem_padded_lt n s x (List.mem_of_mem_take (List.mem_reverse.mp hx))) h)

theorem Dec.printCore_head_ne_minus (n s : Nat) :
    (Dec.printCore n s).head? ≠ some '-' := by
  intro h
  have hmem : '-' ∈ Dec.printCore n s := by
    cases hcs : Dec.printCore n s with
    | nil => rw [hcs] at h; simp at h
    | cons x xs =>
      rw [hcs] at h
      simp only [List.head?_cons, Option.some.injEq] at h
      rw [h] at hcs ⊢
      exact List.mem_cons_self _ _
  rcases Dec.printCore_mem n s '-' hmem with h1 | h1
  · simp at h1
  · simp at h1

/-- Round trip: parsing the printed base-10 string of a decimal recovers it
exactly (same mantissa and scale). -/
theorem Dec.parseL_printL (d : Dec) : Dec.parseL (Dec.printL d) = some d := by
  unfold Dec.printL Dec.parseL
  by_cases hm : d.mantissa < 0
  · simp only [hm, if_true]
    rw [if_pos (by simp)]
    simp only [List.tail_cons, Dec.parseUnsignedL_printCore, Option.map_some']
    have : -(d.mantissa.natAbs : Int) = d.mantissa := by omega
    rw [this]
  · simp only [hm, if_false]
    rw [if_neg (by
      cases hcs : (Dec.printCore d.mantissa.natAbs d.scale).head? with
      | none => simp
      | some c =>
        have := Dec.printCore_head_ne_minus d.mantissa.natAbs d.scale
        rw [hcs] at this
        simpa using this)]
    simp only [Dec.parseUnsignedL_printCore, Option.map_some']
    have : (d.mantissa.natAbs : Int) = d.mantissa := by omega
    rw [this]

/-- Round trip on strings. -/
theorem Dec.parse_print (d : Dec) : Dec.parse (Dec.print d) = some d :=
  Dec.parseL_printL d

/-! ## Data model

Modelled from the spec: the `Category` enumeration ("one value from a fixed
enumeration (e.g., UNKNOWN, CLOTHS, FOOD, HOUSEWARES, ...)"), and the
`Product` record with `id` (absent before persistence), `name`,
`description` (optional), `price` (a decimal), `available` (boolean) and
`category`.
-/

inductive Category where
  | UNKNOWN
  | CLOTHS
  | FOOD
  | HOUSEWARES
deriving DecidableEq, Repr

/-- The enumeration member name, as Python exposes it via `.name`. -/
def Category.name : Category → String
  | .UNKNOWN => "UNKNOWN"
  | .CLOTHS => "CLOTHS"
  | .FOOD => "FOOD"
  | .HOUSEWARES => "HOUSEWARES"

/-- Dynamic member lookup by name. Modelled from the spec: the
`getattr(Category, string)` lookup that fails (raising) when the string
"does not match a defined enumeration member name". -/
def Category.fromName : String → Option Category
  | "UNKNOWN" => some .UNKNOWN
  | "CLOTHS" => some .CLOTHS
  | "FOOD" => some .FOOD
  | "HOUSEWARES" => some .HOUSEWARES
  | _ => none

/-- ASCII lower-casing, as Python `str.lower()` behaves on the strings the
service compares. -/
def strLower (s : String) : String := ⟨s.data.map Char.toLower⟩

/-- ASCII upper-casing, as Python `str.upper()` behaves on the strings the
service compares. -/
def strUpper (s : String) : String := ⟨s.data.map Char.toUpper⟩

/-- Scalar JSON values as Python distinguishes them: strings, integers,
non-integer decimal numbers, booleans and null. -/
inductive JsonVal where
  | jstr (s : String)
  | jint (n : Int)
  | jdec (d : Dec)
  | jbool (b : Bool)
  | jnull
deriving DecidableEq, Repr

/-- A JSON request or response document: either an object (a mapping from
keys to scalar values, as the Product payloads are) or something that is
not a mapping. -/
inductive Json where
  | obj (kvs : List (String × JsonVal))
  | notObj
deriving DecidableEq, Repr

/-- Replace the value stored under key `k` (used to vary one entry of a
payload). -/
def Json.setKey : Json → String → JsonVal → Json
  | .obj kvs, k, v => .obj (kvs.map (fun kv => if kv.1 = k then (k, v) else kv))
  | .notObj, _, _ => .notObj

/-- The non-identity fields of a Product record. -/
structure ProductFields where
  name : String
  description : Option String
  price : Dec
  available : Bool
  category : Category
deriving DecidableEq, Repr

/-- The value held by a record's `id` attribute: either the integer identity
assigned by the store, or a raw string assigned by route code (the PUT
handler assigns the URL path parameter, which is a string because the route
declares no integer converter). -/
inductive ProductId where
  | dbId (n : Nat)
  | rawId (s : String)
deriving DecidableEq, Repr

/-- An in-memory Product record. `id = none` means unsaved. -/
structure Product where
  id : Option ProductId
  fields : ProductFields
deriving DecidableEq, Repr

/-- A persisted row: the store's integer identity plus the fields. -/
structure Row where
  id : Nat
  fields : ProductFields
deriving DecidableEq, Repr

/-- The in-memory record for a fetched row. -/
def Row.toProduct (r : Row) : Product := ⟨some (.dbId r.id), r.fields⟩

/-- The store contents: the committed rows. -/
abbrev Store := List Row

/-- Validation failures raised by the model layer. Modelled from the spec:
"validation errors (malformed or semantically invalid input — missing
required field, unknown category name, wrong type for `available`, update
attempted on an unsaved record)". -/
inductive DataValidationError where
  | missingKey (k : String)
  | badData
  | notBoolean
  | unknownCategory
  | updateEmptyId
deriving DecidableEq, Repr

/-- Modelled from the spec: the HTTP boundary surfaces every validation
error as status 400. -/
def data_validation_status (_ : DataValidationError) : Nat := 400

instance {ε α : Type} [DecidableEq ε] [DecidableEq α] : DecidableEq (Except ε α) := by
  intro a b
  cases a <;> cases b
  case error.error x y =>
    exact if h : x = y then isTrue (by rw [h]) else isFalse (by intro hc; cases hc; exact h rfl)
  case error.ok x y => exact isFalse (by intro hc; cases hc)
  case ok.error x y => exact isFalse (by intro hc; cases hc)
  case ok.ok x y =>
    exact if h : x = y then isTrue (by rw [h]) else isFalse (by intro hc; cases hc; exact h rfl)

/-- A freshly constructed `Product()`: no id, default attribute values. -/
def emptyProduct : Product :=
  ⟨none, ⟨"", none, ⟨0, 0⟩, false, .UNKNOWN⟩⟩

/-- The serialized id: the store-assigned identity serializes as a JSON
integer, a raw string id as a JSON string, an unset id as null. -/
def idJson : Option ProductId → JsonVal
  | none => .jnull
  | some (.dbId n) => .jint n
  | some (.rawId s) => .jstr s

/-- Modelled from the spec: `serialize() -> record` "produces a
field-for-field mapping; `price` emitted as a string; `category` emitted as
its enumeration member's name (a string)". -/
def Product.serialize (p : Product) : Json :=
  .obj [("id", idJson p.id),
        ("name", .jstr p.fields.name),
        ("description", match p.fields.description with
          | some s => .jstr s
          | none => .jnull),
        ("price", .jstr (Dec.print p.fields.price)),
        ("available", .jbool p.fields.available),
        ("category", .jstr p.fields.category.name)]

/-- Require a key of the input mapping; its absence is a validation error. -/
def reqKey (kvs : List (String × JsonVal)) (k : String) :
    Except DataValidationError JsonVal :=
  match kvs.lookup k with
  | some v => .ok v
  | none => .error (.missingKey k)

/-- The decimal a `price` entry denotes: "accepted on input as either a
numeric value or its string representation" (modelled from the spec);
anything else is malformed. -/
def priceOf : JsonVal → Except DataValidationError Dec
  | .jstr s =>
    match Dec.parse s with
    | some d => .ok d
    | none => .error .badData
  | .jint n => .ok ⟨n, 0⟩
  | .jdec d => .ok d
  | _ => .error .badData

/-- The optional free-text `description` of an input mapping. -/
def descriptionOf (kvs : List (String × JsonVal)) : Option String :=
  match kvs.lookup "description" with
  | some (.jstr s) => some s
  | _ => none

/-- Read the Product fields out of an input mapping. Modelled from the spec:
`deserialize` "populates fields from a mapping", failing when a required key
(`name`, `price`, `available`, `category`) is absent, when `available` is
present but not a boolean, or when `category` does not match a defined
enumeration member name; a non-text `name` is treated as malformed;
`description` is optional; `id` is never read. -/
def readFields (kvs : List (String × JsonVal)) :
    Except DataValidationError ProductFields :=
  match kvs.lookup "name" with
  | none => .error (.missingKey "name")
  | some (.jstr nm) =>
    match kvs.lookup "price" with
    | none => .error (.missingKey "price")
    | some priceV =>
      match priceOf priceV with
      | .error e => .error e
      | .ok pr =>
        match kvs.lookup "available" with
        | none => .error (.missingKey "available")
        | some (.jbool av) =>
          match kvs.lookup "category" with
          | none => .error (.missingKey "category")
          | some (.jstr cs) =>
            match Category.fromName cs with
            | none => .error .unknownCategory
            | some ct => .ok ⟨nm, descriptionOf kvs, pr, av, ct⟩
          | some _ => .error .badData
        | some _ => .error .notBoolean
  | some _ => .error .badData

/-- Modelled from the spec: `deserialize(record) -> self` — populates the
record's fields from the mapping (failing on a non-mapping input), leaving
`id` untouched ("`id` is intentionally never read from the input mapping"). -/
def Product.deserialize (self : Product) (data : Json) :
    Except DataValidationError Product :=
  match data with
  | .notObj => .error .badData
  | .obj kvs => (readFields kvs).map (fun f => { self with fields := f })

/-! ## Store operations

Modelled from the spec (the relational layer is external): whole-table
scan, identity lookup that never raises, equality filters, insert with a
fresh unique identity, in-place update, and delete by identity.
-/

/-- The integer a numeric string is adapted to by the relational layer;
`none` when the string is not a plain numeral. -/
def intOfString? (s : String) : Option Nat :=
  if s.data ≠ [] ∧ s.data.all Char.isDigit then
    some (ofDigitsLE ((s.data.map charDigit).reverse))
  else none

/-- The integer identity an id attribute addresses in the store: a raw
string id is adapted like any bound parameter. -/
def ProductId.key : ProductId → Option Nat
  | .dbId n => some n
  | .rawId s => intOfString? s

/-- Modelled from the spec: `all()` "returns every record, store-defined
order". -/
def Product.all (store : Store) : List Row := store

/-- Modelled from the spec: `find(id)` "returns the record with that
identity, or not-found (never raises)". The id arrives as the raw URL
path string. -/
def Product.find (store : Store) (product_id : String) : Option Row :=
  match intOfString? product_id with
  | some n => store.find? (fun r => r.id == n)
  | none => none

/-- Modelled from the spec: equality filter on `name`. -/
def Product.find_by_name (store : Store) (nm : String) : List Row :=
  store.filter (fun r => r.fields.name == nm)

/-- Modelled from the spec: equality filter on `category`. -/
def Product.find_by_category (store : Store) (c : Category) : List Row :=
  store.filter (fun r => r.fields.category == c)

/-- Modelled from the spec: equality filter on `available`. -/
def Product.find_by_availability (store : Store) (b : Bool) : List Row :=
  store.filter (fun r => r.fields.available == b)

/-- A fresh identity, distinct from every stored one. -/
def nextId (store : Store) : Nat :=
  store.foldr (fun r acc => max r.id acc) 0 + 1

/-- Modelled from the spec: `create()` "assigns a new unique `id` and
persists all fields". Returns the assigned id with the new store
contents. -/
def Product.create (self : Product) (store : Store) : Nat × Store :=
  let n := nextId store
  (n, store ++ [⟨n, self.fields⟩])

/-- Modelled from the spec: `update()` "persists current field values to
the existing row; fails with a validation error if `id` is null (attempting
to update an unsaved record is a programming error, not a not-found)". -/
def Product.update (self : Product) (store : Store) :
    Except DataValidationError Store :=
  match self.id with
  | none => .error .updateEmptyId
  | some pid =>
    match pid.key with
    | some n => .ok (store.map (fun r => if r.id == n then ⟨r.id, self.fields⟩ else r))
    | none => .error .badData

/-- Modelled from the spec: `delete()` "removes the row matching the
record's `id`; a no-op (not an error) if no such row exists". -/
def Product.delete (self : Product) (store : Store) : Store :=
  match self.id with
  | some pid =>
    match pid.key with
    | some n => store.filter (fun r => r.id != n)
    | none => store
  | none => store

/-! ## HTTP routes

Translated from `service/routes.py`. A handler takes the request pieces it
reads (query parameters, the raw path parameter string, the Content-Type
header, the JSON body) together with the current store contents, and
returns the response (and the new store contents for mutating routes).
Uncaught `DataValidationError`s are surfaced with `data_validation_status`
(modelled from the spec: validation errors become 400).
-/

/-- A response body: empty, a JSON array, a JSON document, or an error
message document. -/
inductive RespBody where
  | empty
  | jsonArr (items : List Json)
  | json (j : Json)
  | err (msg : String)
deriving DecidableEq, Repr

/-- An HTTP response: status code and body. -/
structure Response where
  status : Nat
  body : RespBody
deriving DecidableEq, Repr

/-- `check_content_type` from `service/routes.py`: 415 when the header is
absent, nothing when it equals the expected media type exactly, 415
otherwise. `none` means the check passed. -/
def check_content_type (header : Option String) (content_type : String) :
    Option Response :=
  match header with
  | none => some ⟨415, .err ("Content-Type must be " ++ content_type)⟩
  | some h =>
    if h = content_type then none
    else some ⟨415, .err ("Content-Type must be " ++ content_type)⟩

/-- `create_products` (POST /products) from `service/routes.py`. -/
def create_products (store : Store) (header : Option String) (body : Json) :
    Response × Store :=
  match check_content_type header "application/json" with
  | some resp => (resp, store)
  | none =>
    match Product.deserialize emptyProduct body with
    | .error e => (⟨data_validation_status e, .err "invalid product data"⟩, store)
    | .ok product =>
      let (n, store1) := Product.create product store
      let saved : Product := ⟨some (.dbId n), product.fields⟩
      (⟨201, .json (Product.serialize saved)⟩, store1)

/-- The truthiness Python gives `request.args.get(k)`: false when the
parameter is absent or the empty string. -/
def isPresent : Option String → Bool
  | none => false
  | some s => !(s == "")

/-- The literal list `["true", "yes", 1]` from line 120 of
`service/routes.py`: two strings and the integer one. -/
def availTrueList : List (String ⊕ Nat) :=
  [Sum.inl "true", Sum.inl "yes", Sum.inr 1]

/-- `available_value` from `list_products`: membership of the lower-cased
parameter in `availTrueList` (Python equality between a string and the
integer 1 is always false). -/
def available_value (s : String) : Bool :=
  availTrueList.contains (Sum.inl (strLower s))

/-- The `found_products` selection of `list_products`: the first present
query parameter among availability, name, category picks the filter; none
present means the whole table. `none` is the `getattr` failure on an
undefined category member (surfaced as a validation error, modelled from
the spec). -/
def found_products? (store : Store) (available category name : Option String) :
    Option (List Row) :=
  if isPresent available then
    some (Product.find_by_availability store (available_value (available.getD "")))
  else if isPresent name then
    some (Product.find_by_name store (name.getD ""))
  else if isPresent category then
    match Category.fromName (strUpper (category.getD "")) with
    | some c => some (Product.find_by_category store c)
    | none => none
  else
    some (Product.all store)

/-- `list_products` (GET /products) from `service/routes.py`: apply the
selected filter; an empty result is 204 with an empty body, otherwise 200
with the serialized records. -/
def list_products (store : Store) (available category name : Option String) :
    Response :=
  match found_products? store available category name with
  | none => ⟨400, .err "unknown category"⟩
  | some [] => ⟨204, .empty⟩
  | some ps => ⟨200, .jsonArr (ps.map (fun r => Product.serialize r.toProduct))⟩

/-- `get_products` (GET /products/id) from `service/routes.py`. -/
def get_products (store : Store) (product_id : String) : Response :=
  match Product.find store product_id with
  | none => ⟨404, .err "Product not found"⟩
  | some r => ⟨200, .json (Product.serialize r.toProduct)⟩

/-- `update_product` (PUT /products/id) from `service/routes.py`: check the
content type, find the record, deserialize the body into it, assign the raw
path parameter to `id`, then persist. -/
def update_product (store : Store) (product_id : String) (header : Option String)
    (body : Json) : Response × Store :=
  match check_content_type header "application/json" with
  | some resp => (resp, store)
  | none =>
    match Product.find store product_id with
    | none => (⟨404, .err "Product not found"⟩, store)
    | some row =>
      match Product.deserialize row.toProduct body with
      | .error e => (⟨data_validation_status e, .err "invalid product data"⟩, store)
      | .ok product0 =>
        let product : Product := { product0 with id := some (.rawId product_id) }
        match Product.update product store with
        | .error e => (⟨data_validation_status e, .err "invalid product data"⟩, store)
        | .ok store1 => (⟨200, .json (Product.serialize product)⟩, store1)

/-- `delete_product` (DELETE /products/id) from `service/routes.py`. -/
def delete_product (store : Store) (product_id : String) : Response × Store :=
  match Product.find store product_id with
  | some r => (⟨204, .empty⟩, Product.delete r.toProduct store)
  | none => (⟨204, .empty⟩, store)

/-! ## Sample data used by witnesses -/

/-- A sample stored row: the spec §8 example product. -/
def sampleRow1 : Row := ⟨1, ⟨"Fedora", some "A red hat", ⟨1250, 2⟩, true, .CLOTHS⟩⟩

/-- A second sample stored row, unavailable and of another category. -/
def sampleRow2 : Row := ⟨2, ⟨"Mat", none, ⟨300, 1⟩, false, .HOUSEWARES⟩⟩

/-! ## Helper lemmas -/

theorem available_value_eq (s : String) :
    available_value s = (strLower s == "true" || strLower s == "yes") := by
  have h1 : ∀ u : String,
      ((Sum.inl (strLower s) : String ⊕ Nat) == Sum.inl u) = (strLower s == u) := fun _ => rfl
  have h2 : ((Sum.inl (strLower s) : String ⊕ Nat) == Sum.inr 1) = false := rfl
  simp only [available_value, availTrueList, List.contains_cons, List.contains_nil, h1, h2,
    Bool.or_false, Bool.false_or]

theorem Category.fromName_name (c : Category) : Category.fromName c.name = some c := by
  cases c <;> rfl

theorem lookup_map_setId (kvs : List (String × JsonVal)) (v : JsonVal) (k : String)
    (hk : k ≠ "id") :
    List.lookup k (kvs.map (fun kv => if kv.1 = "id" then ("id", v) else kv))
      = List.lookup k kvs := by
  induction kvs with
  | nil => rfl
  | cons kv t ih =>
    obtain ⟨a, b⟩ := kv
    have hk2 : (k == "id") = false := beq_eq_false_iff_ne.mpr hk
    by_cases ha : a = "id"
    · subst ha
      rw [List.map_cons, if_pos (show (("id", b) : String × JsonVal).1 = "id" from rfl)]
      simp [List.lookup, hk2, ih]
    · rw [List.map_cons, if_neg (show ¬((a, b) : String × JsonVal).1 = "id" from ha)]
      simp [List.lookup, ih]

/-- `deserialize` never reads the `id` entry of the input mapping: replacing
it changes nothing. -/
theorem readFields_setId (kvs : List (String × JsonVal)) (v : JsonVal) :
    readFields (kvs.map (fun kv => if kv.1 = "id" then ("id", v) else kv))
      = readFields kvs := by
  unfold readFields descriptionOf
  rw [lookup_map_setId kvs v "name" (by decide),
      lookup_map_setId kvs v "description" (by decide),
      lookup_map_setId kvs v "price" (by decide),
      lookup_map_setId kvs v "available" (by decide),
      lookup_map_setId kvs v "category" (by decide)]

theorem deserialize_setId (self : Product) (body : Json) (v : JsonVal) :
    Product.deserialize self (body.setKey "id" v) = Product.deserialize self body := by
  cases body with
  | notObj => rfl
  | obj kvs =>
    simp only [Product.deserialize, Json.setKey, readFields_setId]

/-! ## Claims -/

/-- C6: for every valid product record `x`, `deserialize (serialize x)`
reproduces every field of `x` except `id` exactly — name, description,
availability and category are equal, and price is equal as an exact decimal
value — and `deserialize` never reads `id` from its input mapping (the
result is unchanged for every value of the `id` entry, and the receiver's
own id is kept). -/
theorem c6_deserialize_serialize_round_trip (x self : Product) (v : JsonVal) :
    Product.deserialize self (Product.serialize x) = .ok { x with id := self.id } ∧
    Product.deserialize self ((Product.serialize x).setKey "id" v)
      = Product.deserialize self (Product.serialize x) := by
  refine ⟨?_, deserialize_setId self (Product.serialize x) v⟩
  obtain ⟨xid, nm, de, pr, av, ct⟩ := x
  cases de <;> cases ct <;>
    simp [Product.serialize, Product.deserialize, readFields, priceOf, descriptionOf,
      List.lookup, Dec.parse_print, Category.name, Category.fromName, Except.map]

/-- C7: calling `update()` on a record whose `id` is null fails with a
validation error (not a not-found condition), and the HTTP boundary
surfaces validation errors as status 400. -/
theorem c7_update_unsaved_validation_error (p : Product) (store : Store)
    (h : p.id = none) :
    Product.update p store = .error .updateEmptyId ∧
    data_validation_status .updateEmptyId = 400 := by
  unfold Product.update
  rw [h]
  exact ⟨rfl, rfl⟩

/-- C7 witness: an unsaved record is rejected by `update()` with a
validation error surfaced as 400. -/
theorem c7_update_unsaved_validation_error_witness :
    emptyProduct.id = none ∧
    (Product.update emptyProduct [sampleRow1] = .error .updateEmptyId ∧
      data_validation_status .updateEmptyId = 400) :=
  ⟨rfl, c7_update_unsaved_validation_error emptyProduct [sampleRow1] rfl⟩

/-- C10: for POST /products and PUT /products/id the Content-Type header is
compared to "application/json" by exact string equality — the check passes
exactly for that literal header — and a request whose header is absent or
differs in any character is rejected with 415 before the body is read (the
response and store are the same for every body). -/
theorem c10_content_type_exact (header : Option String) (store : Store)
    (body body2 : Json) (pid : String)
    (h : header ≠ some "application/json") :
    (∀ h2 : String, check_content_type (some h2) "application/json" = none ↔
        h2 = "application/json") ∧
    create_products store header body
      = (⟨415, .err "Content-Type must be application/json"⟩, store) ∧
    update_product store pid header body
      = (⟨415, .err "Content-Type must be application/json"⟩, store) ∧
    create_products store header body = create_products store header body2 ∧
    update_product store pid header body = update_product store pid header body2 := by
  have hchk : check_content_type header "application/json"
      = some ⟨415, .err "Content-Type must be application/json"⟩ := by
    cases header with
    | none => rfl
    | some h2 =>
      have hne : h2 ≠ "application/json" := fun he => h (by rw [he])
      simp only [check_content_type, if_neg hne]
      rfl
  refine ⟨?_, ?_, ?_, ?_, ?_⟩
  · intro h2
    constructor
    · intro hchk2
      by_contra hne
      simp only [check_content_type, if_neg hne] at hchk2
      cases hchk2
    · intro he
      rw [he]
      rfl
  · unfold create_products
    rw [hchk]
  · unfold update_product
    rw [hchk]
  · unfold create_products
    rw [hchk]
  · unfold update_product
    rw [hchk]

/-- The `id` entry of a serialized record. -/
def serializedId : Json → Option JsonVal
  | .obj kvs => kvs.lookup "id"
  | .notObj => none

theorem filter_ne_id_eq_erase (l : List Row) (r : Row) (hmem : r ∈ l)
    (hnodup : (l.map Row.id).Nodup) :
    l.filter (fun x => x.id != r.id) = l.erase r := by
  induction l with
  | nil => cases hmem
  | cons h t ih =>
    rw [List.map_cons, List.nodup_cons] at hnodup
    obtain ⟨hnotin, hnd⟩ := hnodup
    by_cases hid : h.id = r.id
    · have hr : h = r := by
        rcases List.mem_cons.mp hmem with h1 | h1
        · exact h1.symm
        · exact absurd (hid ▸ List.mem_map_of_mem Row.id h1) hnotin
      subst hr
      rw [List.erase_cons_head, List.filter_cons]
      have hfalse : (h.id != h.id) = false := by simp
      simp only [hfalse, Bool.false_eq_true, if_false]
      exact List.filter_eq_self.mpr (fun x hx =>
        bne_iff_ne.mpr (fun he => hnotin (he ▸ List.mem_map_of_mem Row.id hx)))
    · have hr : h ≠ r := fun he => hid (by rw [he])
      have hmem2 : r ∈ t := by
        rcases List.mem_cons.mp hmem with h1 | h1
        · exact absurd h1.symm hr
        · exact h1
      rw [List.filter_cons]
      have hp : (h.id != r.id) = true := bne_iff_ne.mpr hid
      simp only [hp, if_true]
      rw [List.erase_cons_tail (by simp [hr]), ih hmem2 hnd]

theorem find_elim (store : Store) (pid : String) (row : Row)
    (h : Product.find store pid = some row) :
    ∃ n, intOfString? pid = some n ∧ store.find? (fun r => r.id == n) = some row := by
  unfold Product.find at h
  cases hi : intOfString? pid with
  | none => rw [hi] at h; exact Option.noConfusion h
  | some n => rw [hi] at h; exact ⟨n, rfl, h⟩

theorem find?_id_map_update (l : List Row) (n : Nat) (f : ProductFields) (row : Row)
    (h : l.find? (fun r => r.id == n) = some row) :
    (l.map (fun r => if r.id == n then (⟨r.id, f⟩ : Row) else r)).find? (fun r => r.id == n)
      = some ⟨row.id, f⟩ := by
  induction l with
  | nil => cases h
  | cons x t ih =>
    by_cases hx : (x.id == n) = true
    · rw [@List.find?_cons_of_pos Row (fun r => r.id == n) x t hx] at h
      injection h with h
      subst h
      rw [List.map_cons, if_pos hx]
      exact @List.find?_cons_of_pos Row (fun r => r.id == n) ⟨x.id, f⟩
        (t.map (fun r => if r.id == n then (⟨r.id, f⟩ : Row) else r)) hx
    · rw [@List.find?_cons_of_neg Row (fun r => r.id == n) x t hx] at h
      rw [List.map_cons, if_neg hx,
        @List.find?_cons_of_neg Row (fun r => r.id == n) x
          (t.map (fun r => if r.id == n then (⟨r.id, f⟩ : Row) else r)) hx]
      exact ih h

/-- Reduction of a successful PUT: the response carries the record whose id
is the raw URL string, and the store maps the addressed row to the new
fields. -/
theorem update_product_ok_reduction (store : Store) (pid : String) (row : Row)
    (body : Json) (p : Product) (n : Nat)
    (hn : intOfString? pid = some n)
    (hfind2 : store.find? (fun r => r.id == n) = some row)
    (hdeser : Product.deserialize row.toProduct body = .ok p) :
    update_product store pid (some "application/json") body
      = (⟨200, .json (Product.serialize ⟨some (.rawId pid), p.fields⟩)⟩,
         store.map (fun r => if r.id == n then (⟨r.id, p.fields⟩ : Row) else r)) := by
  have hfind : Product.find store pid = some row := by
    unfold Product.find
    rw [hn]
    exact hfind2
  have hcc : check_content_type (some "application/json") "application/json" = none := rfl
  have hupd : Product.update { p with id := some (.rawId pid) } store
      = .ok (store.map (fun r => if r.id == n then (⟨r.id, p.fields⟩ : Row) else r)) := by
    unfold Product.update
    simp only [ProductId.key, hn]
  unfold update_product
  simp only [hcc, hfind, hdeser, hupd]

/-- C1 counterexample: the store holds one product with availability true;
the claim interprets the parameter value "1" as true and so requires the
response to list that product, but the code answers 204 with an empty body
(the integer 1 in the literal list never equals the string "1"). -/
theorem c1_available_one_counterexample :
    sampleRow1.fields.available = true ∧
    list_products [sampleRow1] (some "1") none none = ⟨204, .empty⟩ ∧
    list_products [sampleRow1] (some "1") none none
      ≠ ⟨200, .jsonArr [Product.serialize sampleRow1.toProduct]⟩ :=
  ⟨rfl, by decide, by decide⟩

/-- C1 (amended): for every GET /products request with a non-empty
`available` parameter, only the values "true" and "yes" (case-insensitive)
are interpreted as true and every other value — including "1" — as false,
and the response is built from exactly the products whose availability flag
equals that interpreted boolean (204 when none match, 200 with their
serializations otherwise). -/
theorem c1_available_filter_amended (store : Store) (s : String) (ct nm : Option String)
    (h : (s == "") = false) :
    found_products? store (some s) ct nm
      = some (store.filter (fun r => r.fields.available
          == (strLower s == "true" || strLower s == "yes"))) ∧
    list_products store (some s) ct nm
      = (if store.filter (fun r => r.fields.available
            == (strLower s == "true" || strLower s == "yes")) = []
         then (⟨204, .empty⟩ : Response)
         else ⟨200, .jsonArr ((store.filter (fun r => r.fields.available
            == (strLower s == "true" || strLower s == "yes"))).map
              (fun r => Product.serialize r.toProduct))⟩) := by
  have h1 : found_products? store (some s) ct nm
      = some (store.filter (fun r => r.fields.available
          == (strLower s == "true" || strLower s == "yes"))) := by
    simp [found_products?, isPresent, h, Product.find_by_availability, available_value_eq]
  refine ⟨h1, ?_⟩
  unfold list_products
  rw [h1]
  cases hm : store.filter (fun r => r.fields.available
      == (strLower s == "true" || strLower s == "yes")) with
  | nil => simp
  | cons p ps => simp

/-- C1 witness: the mixed-case value "TruE" is interpreted as true and
selects exactly the available product, ignoring the other parameters. -/
theorem c1_available_filter_amended_witness :
    found_products? [sampleRow1, sampleRow2] (some "TruE") (some "junk") (some "junk2")
      = some [sampleRow1] := by
  have := (c1_available_filter_amended [sampleRow1, sampleRow2] "TruE"
    (some "junk") (some "junk2") (by decide)).1
  rw [this]
  decide

/-- C2: a GET /products request with no `available` and no `name` parameter
and a non-empty `category` value that does not name a defined Category
member (after upper-casing) is answered with status 400. -/
theorem c2_unknown_category_400 (store : Store) (ct : String)
    (hp : (ct == "") = false)
    (hct : Category.fromName (strUpper ct) = none) :
    list_products store none (some ct) none = ⟨400, .err "unknown category"⟩ := by
  unfold list_products
  have h1 : found_products? store none (some ct) none = none := by
    simp [found_products?, isPresent, hp, hct]
  rw [h1]

/-- C2 witness: the undefined category value "ELECTRONICS" yields 400. -/
theorem c2_unknown_category_400_witness :
    list_products [sampleRow1] none (some "ELECTRONICS") none
      = ⟨400, .err "unknown category"⟩ :=
  c2_unknown_category_400 [sampleRow1] "ELECTRONICS" (by decide) (by decide)

/-- C3: at most one filter is applied, in the priority order availability,
name, category: the first present (non-empty) parameter selects the filter
and the response does not depend on the later parameters; when none of the
three is present, every record of the store is selected. -/
theorem c3_filter_priority (store : Store) (av ct nm : Option String) :
    (isPresent av = true →
      found_products? store av ct nm
        = some (Product.find_by_availability store (available_value (av.getD ""))) ∧
      ∀ ct2 nm2, list_products store av ct nm = list_products store av ct2 nm2) ∧
    (isPresent av = false → isPresent nm = true →
      found_products? store av ct nm = some (Product.find_by_name store (nm.getD "")) ∧
      ∀ av2 ct2, isPresent av2 = false →
        list_products store av ct nm = list_products store av2 ct2 nm) ∧
    (isPresent av = false → isPresent nm = false → isPresent ct = true →
      found_products? store av ct nm
        = (Category.fromName (strUpper (ct.getD ""))).map
            (fun c => Product.find_by_category store c)) ∧
    (isPresent av = false → isPresent nm = false → isPresent ct = false →
      found_products? store av ct nm = some (Product.all store)) := by
  refine ⟨?_, ?_, ?_, ?_⟩
  · intro h
    have e : ∀ c2 n2, found_products? store av c2 n2
        = some (Product.find_by_availability store (available_value (av.getD ""))) :=
      fun c2 n2 => by simp [found_products?, h]
    refine ⟨e ct nm, ?_⟩
    intro ct2 nm2
    unfold list_products
    rw [e ct nm, e ct2 nm2]
  · intro h hnm
    have e1 : found_products? store av ct nm
        = some (Product.find_by_name store (nm.getD "")) := by
      simp [found_products?, h, hnm]
    refine ⟨e1, ?_⟩
    intro av2 ct2 hav2
    have e2 : found_products? store av2 ct2 nm
        = some (Product.find_by_name store (nm.getD "")) := by
      simp [found_products?, hav2, hnm]
    unfold list_products
    rw [e1, e2]
  · intro h1 h2 h3
    cases hf : Category.fromName (strUpper (ct.getD "")) with
    | none => simp [found_products?, h1, h2, h3, hf]
    | some c => simp [found_products?, h1, h2, h3, hf]
  · intro h1 h2 h3
    simp [found_products?, h1, h2, h3, Product.all]

/-- C3 witness: availability wins over the other parameters; name beats
category; a lone category filter selects by category; no parameters at all
selects the whole store. -/
theorem c3_filter_priority_witness :
    found_products? [sampleRow1, sampleRow2] (some "yes") (some "junk") (some "junk2")
      = some (Product.find_by_availability [sampleRow1, sampleRow2] (available_value "yes")) ∧
    list_products [sampleRow1, sampleRow2] none (some "junk") (some "Fedora")
      = list_products [sampleRow1, sampleRow2] none none (some "Fedora") ∧
    found_products? [sampleRow1, sampleRow2] none (some "cloths") none
      = (Category.fromName (strUpper "cloths")).map
          (fun c => Product.find_by_category [sampleRow1, sampleRow2] c) ∧
    found_products? [sampleRow1, sampleRow2] none none none
      = some (Product.all [sampleRow1, sampleRow2]) := by
  refine ⟨?_, ?_, ?_, ?_⟩
  · exact ((c3_filter_priority [sampleRow1, sampleRow2] (some "yes") (some "junk")
      (some "junk2")).1 (by decide)).1
  · exact (((c3_filter_priority [sampleRow1, sampleRow2] none (some "junk")
      (some "Fedora")).2.1 (by decide) (by decide)).2) none none (by decide)
  · exact (c3_filter_priority [sampleRow1, sampleRow2] none (some "cloths") none).2.2.1
      (by decide) (by decide) (by decide)
  · exact (c3_filter_priority [sampleRow1, sampleRow2] none none none).2.2.2
      (by decide) (by decide) (by decide)

/-- C4: whenever the request resolves to a set of matching records, an
empty set is answered 204 with an empty body and a non-empty set is
answered 200 with the array of the serialized matching records. -/
theorem c4_response_shape (store : Store) (av ct nm : Option String) (l : List Row)
    (h : found_products? store av ct nm = some l) :
    (l = [] → list_products store av ct nm = ⟨204, .empty⟩) ∧
    (l ≠ [] → list_products store av ct nm
        = ⟨200, .jsonArr (l.map (fun r => Product.serialize r.toProduct))⟩) := by
  unfold list_products
  rw [h]
  cases l with
  | nil => exact ⟨fun _ => rfl, fun hne => absurd rfl hne⟩
  | cons p ps => exact ⟨fun he => (List.cons_ne_nil p ps he).elim, fun _ => rfl⟩

/-- C4 witness: with one available product stored, the value "no" matches
nothing (204 empty) and the unfiltered list returns the serialized store
(200). -/
theorem c4_response_shape_witness :
    list_products [sampleRow1] (some "no") none none = ⟨204, .empty⟩ ∧
    list_products [sampleRow1] none none none
      = ⟨200, .jsonArr ([sampleRow1].map (fun r => Product.serialize r.toProduct))⟩ := by
  constructor
  · exact (c4_response_shape [sampleRow1] (some "no") none none [] (by decide)).1 rfl
  · exact (c4_response_shape [sampleRow1] none none none [sampleRow1] (by decide)).2
      (by decide)

/-- C10 witness: the charset-suffixed header and the absent header are both
rejected with 415 and an unchanged store, for any body. -/
theorem c10_content_type_exact_witness :
    (some "application/json; charset=utf-8" ≠ (some "application/json" : Option String)) ∧
    create_products [sampleRow1] (some "application/json; charset=utf-8") Json.notObj
      = (⟨415, .err "Content-Type must be application/json"⟩, [sampleRow1]) ∧
    update_product [sampleRow1] "1" none (Product.serialize sampleRow1.toProduct)
      = (⟨415, .err "Content-Type must be application/json"⟩, [sampleRow1]) := by
  refine ⟨by decide, ?_, ?_⟩
  · exact (c10_content_type_exact (some "application/json; charset=utf-8") [sampleRow1]
      Json.notObj Json.notObj "1" (by decide)).2.1
  · exact (c10_content_type_exact none [sampleRow1]
      (Product.serialize sampleRow1.toProduct) Json.notObj "1" (by decide)).2.2.1

/-- C5: DELETE /products/id responds 204 with an empty body for every id,
including when no product with that id exists; deleting a nonexistent id
leaves the store unchanged, and deleting an existing id removes exactly
that record. -/
theorem c5_delete_idempotent (store : Store) (pid : String) :
    (delete_product store pid).1 = ⟨204, .empty⟩ ∧
    (Product.find store pid = none → (delete_product store pid).2 = store) ∧
    (∀ r, Product.find store pid = some r →
      (delete_product store pid).2 = store.filter (fun x => x.id != r.id) ∧
      ((store.map Row.id).Nodup → (delete_product store pid).2 = store.erase r)) := by
  refine ⟨?_, ?_, ?_⟩
  · unfold delete_product
    cases Product.find store pid <;> rfl
  · intro h
    unfold delete_product
    rw [h]
  · intro r h
    have hfilter : (delete_product store pid).2 = store.filter (fun x => x.id != r.id) := by
      unfold delete_product
      rw [h]
      rfl
    refine ⟨hfilter, ?_⟩
    intro hnodup
    rw [hfilter]
    obtain ⟨n, _, hfind2⟩ := find_elim store pid r h
    exact filter_ne_id_eq_erase store r (List.mem_of_find?_eq_some hfind2) hnodup

/-- C5 witness: deleting the missing id "9" answers 204 and leaves the
store unchanged; deleting the existing id "1" answers 204 and removes
exactly that row. -/
theorem c5_delete_idempotent_witness :
    (delete_product [sampleRow1, sampleRow2] "9").1 = ⟨204, .empty⟩ ∧
    (delete_product [sampleRow1, sampleRow2] "9").2 = [sampleRow1, sampleRow2] ∧
    (delete_product [sampleRow1, sampleRow2] "1").2
      = [sampleRow1, sampleRow2].erase sampleRow1 := by
  refine ⟨?_, ?_, ?_⟩
  · exact (c5_delete_idempotent [sampleRow1, sampleRow2] "9").1
  · exact (c5_delete_idempotent [sampleRow1, sampleRow2] "9").2.1 (by decide)
  · exact ((c5_delete_idempotent [sampleRow1, sampleRow2] "1").2.2 sampleRow1
      (by decide)).2 (by decide)

/-- C8: a valid PUT /products/id never changes any stored record's id —
the identities after the update are exactly the identities before, so the
addressed record keeps the id assigned at creation — and a subsequent
find(id) returns the new field values from the request body. -/
theorem c8_update_preserves_id (store : Store) (pid : String) (row : Row)
    (body : Json) (p : Product)
    (hfind : Product.find store pid = some row)
    (hdeser : Product.deserialize row.toProduct body = .ok p) :
    ((update_product store pid (some "application/json") body).2).map Row.id
      = store.map Row.id ∧
    Product.find ((update_product store pid (some "application/json") body).2) pid
      = some ⟨row.id, p.fields⟩ := by
  obtain ⟨n, hn, hfind2⟩ := find_elim store pid row hfind
  rw [update_product_ok_reduction store pid row body p n hn hfind2 hdeser]
  constructor
  · rw [List.map_map]
    apply List.map_congr_left
    intro r _
    by_cases hr : (r.id == n) = true
    · simp [Function.comp, hr]
    · simp [Function.comp, hr]
  · unfold Product.find
    rw [hn]
    exact find?_id_map_update store n p.fields row hfind2

/-- C8 witness: updating row 2 with the serialized fields of the sample
product keeps the stored identities [1, 2] and find "2" returns id 2 with
the new fields. -/
theorem c8_update_preserves_id_witness :
    ((update_product [sampleRow1, sampleRow2] "2" (some "application/json")
        (Product.serialize sampleRow1.toProduct)).2).map Row.id
      = [sampleRow1, sampleRow2].map Row.id ∧
    Product.find ((update_product [sampleRow1, sampleRow2] "2" (some "application/json")
        (Product.serialize sampleRow1.toProduct)).2) "2"
      = some ⟨2, sampleRow1.fields⟩ := by
  have h := c8_update_preserves_id [sampleRow1, sampleRow2] "2" sampleRow2
    (Product.serialize sampleRow1.toProduct) ⟨some (.dbId 2), sampleRow1.fields⟩
    (by decide) (by decide)
  exact ⟨h.1, h.2⟩

/-- C9: on a successful PUT /products/id the handler assigns the raw URL
path parameter — a string — to the record's id after deserializing the body
and before update(), so the returned record's id entry is that string taken
from the URL, and the response and new store contents are unchanged for
every value of the body's own `id` entry. -/
theorem c9_update_id_from_url (store : Store) (pid : String) (row : Row)
    (body : Json) (p : Product) (v : JsonVal)
    (hfind : Product.find store pid = some row)
    (hdeser : Product.deserialize row.toProduct body = .ok p) :
    (update_product store pid (some "application/json") body).1
      = ⟨200, .json (Product.serialize ⟨some (.rawId pid), p.fields⟩)⟩ ∧
    serializedId (Product.serialize ⟨some (.rawId pid), p.fields⟩) = some (.jstr pid) ∧
    update_product store pid (some "application/json") (body.setKey "id" v)
      = update_product store pid (some "application/json") body := by
  obtain ⟨n, hn, hfind2⟩ := find_elim store pid row hfind
  refine ⟨?_, rfl, ?_⟩
  · rw [update_product_ok_reduction store pid row body p n hn hfind2 hdeser]
  · have hdeser2 : Product.deserialize row.toProduct (body.setKey "id" v) = .ok p := by
      rw [deserialize_setId]
      exact hdeser
    rw [update_product_ok_reduction store pid row (body.setKey "id" v) p n hn hfind2 hdeser2,
        update_product_ok_reduction store pid row body p n hn hfind2 hdeser]

/-- C9 witness: updating row 2, the response record's id entry is the URL
string "2", and replacing the body's id entry with 999 changes nothing. -/
theorem c9_update_id_from_url_witness :
    (update_product [sampleRow1, sampleRow2] "2" (some "application/json")
        (Product.serialize sampleRow1.toProduct)).1
      = ⟨200, .json (Product.serialize ⟨some (.rawId "2"), sampleRow1.fields⟩)⟩ ∧
    update_product [sampleRow1, sampleRow2] "2" (some "application/json")
        ((Product.serialize sampleRow1.toProduct).setKey "id" (.jint 999))
      = update_product [sampleRow1, sampleRow2] "2" (some "application/json")
          (Product.serialize sampleRow1.toProduct) := by
  have h := c9_update_id_from_url [sampleRow1, sampleRow2] "2" sampleRow2
    (Product.serialize sampleRow1.toProduct) ⟨some (.dbId 2), sampleRow1.fields⟩
    (.jint 999) (by decide) (by decide)
  exact ⟨h.1, h.2.2⟩

end ProductService
